import Mathlib

/-!
Verification development for the anchor-escrow program and the
whitelist-transfer-hook program of this repository.

The escrow core (Make / Take / Refund, the Escrow record, address
derivation) is exercised by `programs/anchor-escrow/src/tests/mod.rs`;
its state machine is embedded below following the specification's
data model (§3), component design (§4) and concurrency model (§5):
every operation is a pure function from a chain state to
`Except EscrowErr Chain`, an error meaning the environment discards
all effects (atomic all-or-nothing commit).

The whitelist operations are embedded directly from
`programs/whitelist-transfer-hook/src/instructions/whitelist_operations.rs`
and `state/whitelist.rs`.
-/

/-- Addresses. `key` addresses are ordinary key-pair addresses (users,
mints) that can produce signatures; `pda` addresses are program-derived
from a list of byte-sequence seed inputs and have no private key;
`assoc` is the associated-token-account derivation from (owner, mint).
Constructor distinctness models the spec's collision resistance:
a derived address never coincides with an ordinary address. -/
inductive Addr where
  | key : Nat → Addr
  | pda : List (List Nat) → Addr
  | assoc : Addr → Addr → Addr
deriving DecidableEq, Repr

/-- Whether an address is an ordinary key-pair address (able to sign). -/
def Addr.isKey : Addr → Bool
  | .key _ => true
  | _ => false

/-- Little-endian byte serialization of a natural number, fixed width. -/
def natLeBytes : Nat → Nat → List Nat
  | 0, _ => []
  | w + 1, v => (v % 256) :: natLeBytes w (v / 256)

/-- Read back a little-endian byte list as a natural number. -/
def leBytesToNat : List Nat → Nat
  | [] => 0
  | b :: bs => b + 256 * leBytesToNat bs

/-- A u64 seed serialized as 8 little-endian bytes (`seed.to_le_bytes()`). -/
def seedLeBytes (seed : Nat) : List Nat := natLeBytes 8 seed

/-- Byte serialization of an address, used as seed material in derivations. -/
def addrBytes : Addr → List Nat
  | .key id => 0 :: natLeBytes 32 id
  | .pda inputs => 1 :: (inputs.map fun l => l.length :: l).flatten
  | .assoc o m => 2 :: (addrBytes o ++ addrBytes m)

/-- The ASCII bytes of the literal tag "escrow". -/
def escrowTag : List Nat := [101, 115, 99, 114, 111, 119]

/-- Modelled from the spec: the Derived-Address Deriver (§4.1) for the
escrow record, `derive(["escrow", maker_bytes, seed_le_bytes])`;
the concrete hash is abstracted by the injective `Addr.pda` constructor. -/
def escrowAddress (maker : Addr) (seed : Nat) : Addr :=
  .pda [escrowTag, addrBytes maker, seedLeBytes seed]

/-- Modelled from the spec: the associated-token-account derivation
`derive_associated(owner, mint)` (§4.1, §6). -/
def ataAddress (owner mint : Addr) : Addr := .assoc owner mint

/-- Modelled from the spec: the vault address is the associated token
account of the escrow's derived address for `mint_a` (§4.1, §6). -/
def vaultAddress (escrow mintA : Addr) : Addr := ataAddress escrow mintA

/-- Modelled from the spec: the persisted Escrow Record layout (§3, §6):
seed, maker, mint_a, mint_b, receive, unlock_time (signed), bump. -/
structure Escrow where
  seed : Nat
  maker : Addr
  mintA : Addr
  mintB : Addr
  receive : Nat
  unlockTime : Int
  bump : Nat
deriving DecidableEq, Repr

/-- A token-holding account: its mint, its custody authority, its balance. -/
structure TokenAccount where
  mint : Addr
  owner : Addr
  amount : Nat
deriving DecidableEq, Repr

/-- Modelled from the spec: the address-keyed global storage (§9),
split into token accounts and escrow records; existence-as-state. -/
structure Chain where
  tokenAccts : Addr → Option TokenAccount
  escrows : Addr → Option Escrow

/-- Error taxonomy of the spec (§7): validation, duplicate/not-found,
authorization, timing, custody classes, each a distinct code. -/
inductive EscrowErr where
  | zeroAmount
  | duplicateRecord
  | notFound
  | tooEarly
  | unauthorized
  | derivationMismatch
  | insufficientBalance
  | custody
deriving DecidableEq, Repr

/-- Update the token-account map at one address. -/
def setTok (st : Chain) (a : Addr) (v : Option TokenAccount) : Chain :=
  { st with tokenAccts := fun x => if x = a then v else st.tokenAccts x }

/-- Update the escrow-record map at one address. -/
def setEsc (st : Chain) (a : Addr) (v : Option Escrow) : Chain :=
  { st with escrows := fun x => if x = a then v else st.escrows x }

/-- Balance of a token account, 0 if the account does not exist. -/
def amountOf (st : Chain) (a : Addr) : Nat :=
  match st.tokenAccts a with
  | none => 0
  | some acct => acct.amount

/-- Modelled from the spec: the Custody Adapter's debit half of
"move N units of asset A from source to destination" (§2): the source
must exist, hold the right mint, be owned by the authorizing party and
hold at least the amount; else a custody-class error. -/
def debit (st : Chain) (mint src owner : Addr) (amt : Nat) :
    Except EscrowErr Chain :=
  match st.tokenAccts src with
  | none => .error .custody
  | some acct =>
    if acct.mint = mint then
      if acct.owner = owner then
        if amt ≤ acct.amount then
          .ok (setTok st src (some { acct with amount := acct.amount - amt }))
        else .error .insufficientBalance
      else .error .custody
    else .error .custody

/-- Modelled from the spec: the Custody Adapter's credit half; the
destination is created if absent ("created if absent", §4.3) with the
given owner, else its mint must match. -/
def credit (st : Chain) (mint owner dst : Addr) (amt : Nat) :
    Except EscrowErr Chain :=
  match st.tokenAccts dst with
  | none => .ok (setTok st dst (some ⟨mint, owner, amt⟩))
  | some acct =>
    if acct.mint = mint then
      .ok (setTok st dst (some { acct with amount := acct.amount + amt }))
    else .error .custody

/-- Close a token account ("close account", §2): it ceases to exist. -/
def closeTok (st : Chain) (a : Addr) : Chain := setTok st a none

/-- Modelled from the spec: the Make operation (§4.2). Validates
deposit > 0 and receive > 0 first, rejects a duplicate record address
before any transfer, creates the record (unlock_time =
current_time + waiting_time) and the vault owned by the escrow address,
then transfers the deposit from the maker's source account. -/
def make (st : Chain) (now : Int) (maker mintA mintB makerSrcA : Addr)
    (seed deposit receive : Nat) (waitingTime : Int) :
    Except EscrowErr Chain :=
  if deposit = 0 ∨ receive = 0 then .error .zeroAmount
  else
    match st.escrows (escrowAddress maker seed) with
    | some _ => .error .duplicateRecord
    | none =>
      match debit (setTok (setEsc st (escrowAddress maker seed)
          (some ⟨seed, maker, mintA, mintB, receive, now + waitingTime, 0⟩))
          (vaultAddress (escrowAddress maker seed) mintA)
          (some ⟨mintA, escrowAddress maker seed, 0⟩))
          mintA makerSrcA maker deposit with
      | .error err => .error err
      | .ok st₃ =>
        match credit st₃ mintA (escrowAddress maker seed)
            (vaultAddress (escrowAddress maker seed) mintA) deposit with
        | .error err => .error err
        | .ok st₄ => .ok st₄

/-- Modelled from the spec: the Take operation (§4.3). Rejects a
missing record as not-found, checks the time lock (distinct "too early"
error), re-derives the record and vault addresses, then atomically:
taker pays `receive` of mint_b to the maker, the vault's full balance
of mint_a goes to the taker, vault and record are closed. -/
def take (st : Chain) (now : Int) (taker escrowA : Addr) :
    Except EscrowErr Chain :=
  match st.escrows escrowA with
  | none => .error .notFound
  | some rec =>
    if now < rec.unlockTime then .error .tooEarly
    else if escrowA = escrowAddress rec.maker rec.seed then
      match debit st rec.mintB (ataAddress taker rec.mintB) taker rec.receive with
      | .error err => .error err
      | .ok st₁ =>
        match credit st₁ rec.mintB rec.maker (ataAddress rec.maker rec.mintB)
            rec.receive with
        | .error err => .error err
        | .ok st₂ =>
          match st₂.tokenAccts (vaultAddress escrowA rec.mintA) with
          | none => .error .custody
          | some vAcct =>
            match debit st₂ rec.mintA (vaultAddress escrowA rec.mintA)
                escrowA vAcct.amount with
            | .error err => .error err
            | .ok st₃ =>
              match credit st₃ rec.mintA taker (ataAddress taker rec.mintA)
                  vAcct.amount with
              | .error err => .error err
              | .ok st₄ => .ok (setEsc (closeTok st₄
                  (vaultAddress escrowA rec.mintA)) escrowA none)
    else .error .derivationMismatch

/-- Modelled from the spec: the Refund operation (§4.4). Rejects a
missing record as not-found, requires the caller to be the stored
maker (authorization check), re-derives the record address, then
returns the vault's full balance of mint_a to the maker and closes
vault and record. The current time is supplied by the environment but
never consulted: no time-lock check is applied (§4.4, §9). -/
def refund (st : Chain) (now : Int) (caller escrowA : Addr) :
    Except EscrowErr Chain :=
  match st.escrows escrowA with
  | none => .error .notFound
  | some rec =>
    if caller = rec.maker then
      if escrowA = escrowAddress rec.maker rec.seed then
        match st.tokenAccts (vaultAddress escrowA rec.mintA) with
        | none => .error .custody
        | some vAcct =>
          match debit st rec.mintA (vaultAddress escrowA rec.mintA)
              escrowA vAcct.amount with
          | .error err => .error err
          | .ok st₁ =>
            match credit st₁ rec.mintA rec.maker
                (ataAddress rec.maker rec.mintA) vAcct.amount with
            | .error err => .error err
            | .ok st₂ => .ok (setEsc (closeTok st₂
                (vaultAddress escrowA rec.mintA)) escrowA none)
      else .error .derivationMismatch
    else .error .unauthorized

/-- One submitted operation together with the environment-supplied
current time (§9: the clock is an explicit parameter). -/
inductive Op where
  | opMake (now : Int) (maker mintA mintB makerSrcA : Addr)
      (seed deposit receive : Nat) (waitingTime : Int)
  | opTake (now : Int) (taker escrowA : Addr)
  | opRefund (now : Int) (caller escrowA : Addr)

/-- Dispatch an operation against a chain state. -/
def applyOp (st : Chain) : Op → Except EscrowErr Chain
  | .opMake now maker mA mB src seed d r w => make st now maker mA mB src seed d r w
  | .opTake now taker e => take st now taker e
  | .opRefund now caller e => refund st now caller e

/-- The environment's signature check (§5): the authorizing party of an
operation must be an ordinary key-pair address able to sign. -/
def signerOk : Op → Bool
  | .opMake _ maker _ _ _ _ _ _ _ => maker.isKey
  | .opTake _ taker _ => taker.isKey
  | .opRefund _ caller _ => caller.isKey

/-- The deposit amount carried by an operation (0 for Take/Refund). -/
def Op.depositAmount : Op → Nat
  | .opMake _ _ _ _ _ _ d _ _ => d
  | _ => 0

/-- Structural well-formedness of a chain state maintained by the
escrow core: every live record sits at its own derived address, its
maker is a signing key address, and its vault (when present) is owned
by the record's derived address (§3 invariants). -/
def WF (st : Chain) : Prop :=
  ∀ f rec, st.escrows f = some rec →
    rec.maker.isKey = true ∧
    f = escrowAddress rec.maker rec.seed ∧
    ∀ acct, st.tokenAccts (vaultAddress f rec.mintA) = some acct →
      acct.owner = f

/-! ## Basic lemmas about the state maps and the custody adapter -/

theorem setTok_same (st : Chain) (a : Addr) (v : Option TokenAccount) :
    (setTok st a v).tokenAccts a = v := by
  simp [setTok]

theorem setTok_other (st : Chain) (a b : Addr) (v : Option TokenAccount)
    (h : b ≠ a) : (setTok st a v).tokenAccts b = st.tokenAccts b := by
  simp [setTok, h]

theorem setTok_escrows (st : Chain) (a : Addr) (v : Option TokenAccount) :
    (setTok st a v).escrows = st.escrows := rfl

theorem setEsc_same (st : Chain) (a : Addr) (v : Option Escrow) :
    (setEsc st a v).escrows a = v := by
  simp [setEsc]

theorem setEsc_other (st : Chain) (a b : Addr) (v : Option Escrow)
    (h : b ≠ a) : (setEsc st a v).escrows b = st.escrows b := by
  simp [setEsc, h]

theorem setEsc_tokenAccts (st : Chain) (a : Addr) (v : Option Escrow) :
    (setEsc st a v).tokenAccts = st.tokenAccts := rfl

theorem key_ne_pda (a : Addr) (h : a.isKey = true) (l : List (List Nat)) :
    a ≠ .pda l := by
  cases a <;> simp [Addr.isKey] at h ⊢

theorem key_ne_escrowAddress (a : Addr) (h : a.isKey = true)
    (maker : Addr) (seed : Nat) : a ≠ escrowAddress maker seed :=
  key_ne_pda a h _

/-- A successful debit: the source loses `amt`, nothing else changes. -/
theorem debit_ok (st : Chain) (mint src owner : Addr) (amt : Nat)
    (acct : TokenAccount) (h : st.tokenAccts src = some acct)
    (hm : acct.mint = mint) (ho : acct.owner = owner)
    (ha : amt ≤ acct.amount) :
    ∃ st', debit st mint src owner amt = .ok st' ∧
      st'.tokenAccts src = some ⟨mint, owner, acct.amount - amt⟩ ∧
      (∀ x, x ≠ src → st'.tokenAccts x = st.tokenAccts x) ∧
      st'.escrows = st.escrows := by
  refine ⟨setTok st src (some { acct with amount := acct.amount - amt }),
    ?_, ?_, ?_, rfl⟩
  · unfold debit
    rw [h]
    simp [hm, ho, ha]
  · rw [setTok_same]
    simp [hm, ho]
  · intro x hx
    exact setTok_other st src x _ hx

/-- A failed debit for lack of funds. -/
theorem debit_insufficient (st : Chain) (mint src owner : Addr) (amt : Nat)
    (acct : TokenAccount) (h : st.tokenAccts src = some acct)
    (hm : acct.mint = mint) (ho : acct.owner = owner)
    (ha : acct.amount < amt) :
    debit st mint src owner amt = .error .insufficientBalance := by
  unfold debit
  rw [h]
  simp [hm, ho]
  omega

/-- A successful credit to a mint-compatible (possibly absent)
destination: its balance grows by `amt`, nothing else changes. -/
theorem credit_ok (st : Chain) (mint owner dst : Addr) (amt : Nat)
    (hc : ∀ acct, st.tokenAccts dst = some acct → acct.mint = mint) :
    ∃ st', credit st mint owner dst amt = .ok st' ∧
      (∃ acct, st'.tokenAccts dst = some acct ∧ acct.mint = mint ∧
        acct.amount = amountOf st dst + amt) ∧
      (∀ x, x ≠ dst → st'.tokenAccts x = st.tokenAccts x) ∧
      st'.escrows = st.escrows := by
  unfold credit
  cases hdst : st.tokenAccts dst with
  | none =>
    refine ⟨setTok st dst (some ⟨mint, owner, amt⟩), rfl, ?_, ?_, rfl⟩
    · exact ⟨⟨mint, owner, amt⟩, setTok_same st dst _, rfl, by
        simp [amountOf, hdst]⟩
    · intro x hx
      exact setTok_other st dst x _ hx
  | some acct =>
    have hm := hc acct hdst
    refine ⟨setTok st dst (some { acct with amount := acct.amount + amt }),
      by simp [hm], ?_, ?_, rfl⟩
    · exact ⟨{ acct with amount := acct.amount + amt }, setTok_same st dst _,
        hm, by simp [amountOf, hdst]⟩
    · intro x hx
      exact setTok_other st dst x _ hx

/-! ## Make: success and rejection behaviour -/

/-- Full description of a successful Make: the record is created at the
derived address with the given terms, the vault is created owned by the
derived address holding exactly the deposit, the source loses the
deposit, and nothing else changes. -/
theorem make_ok_spec (st : Chain) (now : Int)
    (maker mintA mintB makerSrcA : Addr)
    (seed deposit receive : Nat) (waitingTime : Int) (sAcct : TokenAccount)
    (hd : deposit ≠ 0) (hr : receive ≠ 0)
    (hnone : st.escrows (escrowAddress maker seed) = none)
    (hsrc : st.tokenAccts makerSrcA = some sAcct)
    (hsm : sAcct.mint = mintA) (hso : sAcct.owner = maker)
    (hsa : deposit ≤ sAcct.amount)
    (hne : makerSrcA ≠ vaultAddress (escrowAddress maker seed) mintA) :
    ∃ st', make st now maker mintA mintB makerSrcA seed deposit receive
        waitingTime = .ok st' ∧
      st'.escrows (escrowAddress maker seed) =
        some ⟨seed, maker, mintA, mintB, receive, now + waitingTime, 0⟩ ∧
      st'.tokenAccts (vaultAddress (escrowAddress maker seed) mintA) =
        some ⟨mintA, escrowAddress maker seed, deposit⟩ ∧
      st'.tokenAccts makerSrcA =
        some ⟨mintA, maker, sAcct.amount - deposit⟩ ∧
      (∀ x, x ≠ makerSrcA →
        x ≠ vaultAddress (escrowAddress maker seed) mintA →
        st'.tokenAccts x = st.tokenAccts x) ∧
      (∀ f, f ≠ escrowAddress maker seed →
        st'.escrows f = st.escrows f) := by
  have h2src : (setTok (setEsc st (escrowAddress maker seed)
      (some ⟨seed, maker, mintA, mintB, receive, now + waitingTime, 0⟩))
      (vaultAddress (escrowAddress maker seed) mintA)
      (some ⟨mintA, escrowAddress maker seed, 0⟩)).tokenAccts makerSrcA =
      some sAcct := by
    rw [setTok_other _ _ _ _ hne]
    exact hsrc
  obtain ⟨st₃, hdeb, hsrc3, hfr3, hesc3⟩ :=
    debit_ok _ mintA makerSrcA maker deposit sAcct h2src hsm hso hsa
  have h3v : st₃.tokenAccts (vaultAddress (escrowAddress maker seed) mintA) =
      some ⟨mintA, escrowAddress maker seed, 0⟩ := by
    rw [hfr3 _ (Ne.symm hne), setTok_same]
  have hcred : credit st₃ mintA (escrowAddress maker seed)
      (vaultAddress (escrowAddress maker seed) mintA) deposit =
      .ok (setTok st₃ (vaultAddress (escrowAddress maker seed) mintA)
        (some ⟨mintA, escrowAddress maker seed, 0 + deposit⟩)) := by
    unfold credit
    rw [h3v]
    simp
  refine ⟨setTok st₃ (vaultAddress (escrowAddress maker seed) mintA)
      (some ⟨mintA, escrowAddress maker seed, 0 + deposit⟩),
    ?_, ?_, ?_, ?_, ?_, ?_⟩
  · simp only [make, hd, hr, hnone, vaultAddress, ataAddress] at hdeb hcred ⊢
    simp only [hdeb, hcred]
    simp [hd, hr]
  · rw [setTok_escrows, hesc3, setTok_escrows, setEsc_same]
  · rw [setTok_same]
    simp
  · rw [setTok_other _ _ _ _ hne, hsrc3]
  · intro x hx hxv
    rw [setTok_other _ _ _ _ hxv, hfr3 x hx, setTok_other _ _ _ _ hxv]
    rfl
  · intro f hf
    rw [setTok_escrows, hesc3, setTok_escrows, setEsc_other _ _ _ _ hf]

/-! ## Little-endian serialization round trip -/

theorem natLeBytes_length (w v : Nat) : (natLeBytes w v).length = w := by
  induction w generalizing v with
  | zero => rfl
  | succ w ih => simp [natLeBytes, ih]

theorem leBytesToNat_natLeBytes (w v : Nat) (h : v < 256 ^ w) :
    leBytesToNat (natLeBytes w v) = v := by
  induction w generalizing v with
  | zero =>
    interval_cases v
    rfl
  | succ w ih =>
    have hdiv : v / 256 < 256 ^ w := by
      rw [Nat.div_lt_iff_lt_mul (by norm_num)]
      calc v < 256 ^ (w + 1) := h
        _ = 256 ^ w * 256 := by rw [pow_succ]
    simp only [natLeBytes, leBytesToNat, ih (v / 256) hdiv]
    exact Nat.mod_add_div v 256

/-! ## Concrete addresses and states used to witness the theorems -/

def wMaker : Addr := .key 1
def wMintA : Addr := .key 2
def wMintB : Addr := .key 3
def wTaker : Addr := .key 4
def wOther : Addr := .key 5
def wSrcA : Addr := ataAddress wMaker wMintA

/-- A small funded starting state: the maker holds 1000 of mint A, the
taker holds 500 of mint B; no escrow records. -/
def wSt0 : Chain :=
  { tokenAccts := fun a =>
      if a = wSrcA then some ⟨wMintA, wMaker, 1000⟩
      else if a = ataAddress wTaker wMintB then some ⟨wMintB, wTaker, 500⟩
      else none,
    escrows := fun _ => none }

/-- The state after the maker opens offer (seed 123, deposit 10,
receive 40, waiting time 300 at time 0). -/
def wSt1 : Chain :=
  match make wSt0 0 wMaker wMintA wMintB wSrcA 123 10 40 300 with
  | .ok s => s
  | .error _ => wSt0

def wEscrow : Addr := escrowAddress wMaker 123
def wVault : Addr := vaultAddress wEscrow wMintA
def wRec : Escrow := ⟨123, wMaker, wMintA, wMintB, 40, 300, 0⟩

/-! ## Claim C2: Make creates the record and funds the vault -/

/-- C2: for every seed, deposit > 0 and receive > 0, and a maker source
account holding at least `deposit` units of mint_a (with no record yet
at the derived address), Make succeeds; immediately afterwards the
vault's balance equals `deposit`, the vault is owned by the escrow's
derived address, and the record's stored seed, maker, mint_a, mint_b
and receive fields equal the inputs. -/
theorem make_funds_vault_and_stores_terms (st : Chain) (now : Int)
    (maker mintA mintB makerSrcA : Addr)
    (seed deposit receive : Nat) (waitingTime : Int) (sAcct : TokenAccount)
    (hd : 0 < deposit) (hr : 0 < receive)
    (hnone : st.escrows (escrowAddress maker seed) = none)
    (hsrc : st.tokenAccts makerSrcA = some sAcct)
    (hsm : sAcct.mint = mintA) (hso : sAcct.owner = maker)
    (hsa : deposit ≤ sAcct.amount)
    (hne : makerSrcA ≠ vaultAddress (escrowAddress maker seed) mintA) :
    ∃ st', make st now maker mintA mintB makerSrcA seed deposit receive
        waitingTime = .ok st' ∧
      (∃ vAcct, st'.tokenAccts (vaultAddress (escrowAddress maker seed)
          mintA) = some vAcct ∧
        vAcct.amount = deposit ∧
        vAcct.owner = escrowAddress maker seed ∧
        vAcct.mint = mintA) ∧
      (∃ rec, st'.escrows (escrowAddress maker seed) = some rec ∧
        rec.seed = seed ∧ rec.maker = maker ∧ rec.mintA = mintA ∧
        rec.mintB = mintB ∧ rec.receive = receive) := by
  obtain ⟨st', hmk, hesc, hvlt, hsrc', hfr, hescfr⟩ :=
    make_ok_spec st now maker mintA mintB makerSrcA seed deposit receive
      waitingTime sAcct (Nat.pos_iff_ne_zero.mp hd)
      (Nat.pos_iff_ne_zero.mp hr) hnone hsrc hsm hso hsa hne
  exact ⟨st', hmk,
    ⟨⟨mintA, escrowAddress maker seed, deposit⟩, hvlt, rfl, rfl, rfl⟩,
    ⟨⟨seed, maker, mintA, mintB, receive, now + waitingTime, 0⟩, hesc,
      rfl, rfl, rfl, rfl, rfl⟩⟩

theorem make_funds_vault_and_stores_terms_witness :
    0 < 10 ∧ 0 < 40 ∧
    wSt0.escrows (escrowAddress wMaker 123) = none ∧
    wSt0.tokenAccts wSrcA = some ⟨wMintA, wMaker, 1000⟩ ∧
    ∃ st', make wSt0 0 wMaker wMintA wMintB wSrcA 123 10 40 300 =
        .ok st' ∧
      (∃ vAcct, st'.tokenAccts (vaultAddress (escrowAddress wMaker 123)
          wMintA) = some vAcct ∧
        vAcct.amount = 10 ∧
        vAcct.owner = escrowAddress wMaker 123 ∧
        vAcct.mint = wMintA) ∧
      (∃ rec, st'.escrows (escrowAddress wMaker 123) = some rec ∧
        rec.seed = 123 ∧ rec.maker = wMaker ∧ rec.mintA = wMintA ∧
        rec.mintB = wMintB ∧ rec.receive = 40) :=
  ⟨by decide, by decide, rfl, rfl,
    make_funds_vault_and_stores_terms wSt0 0 wMaker wMintA wMintB wSrcA
      123 10 40 300 ⟨wMintA, wMaker, 1000⟩ (by decide) (by decide) rfl rfl
      rfl rfl (by decide) (by decide)⟩

/-! ## Claim C9: Make rejects zero amounts before any mutation -/

/-- C9: a Make call in which deposit or receive equals zero is rejected
by validation with the distinct zero-amount error; since every
operation commits atomically, the error return means no storage
allocation and no transfer took place. -/
theorem make_rejects_zero_amounts (st : Chain) (now : Int)
    (maker mintA mintB makerSrcA : Addr)
    (seed deposit receive : Nat) (waitingTime : Int)
    (h : deposit = 0 ∨ receive = 0) :
    make st now maker mintA mintB makerSrcA seed deposit receive
      waitingTime = .error .zeroAmount := by
  unfold make
  rw [if_pos h]

theorem make_rejects_zero_amounts_witness :
    ((0 : Nat) = 0 ∨ (7 : Nat) = 0) ∧
    make wSt0 0 wMaker wMintA wMintB wSrcA 9 0 7 0 =
      .error .zeroAmount :=
  ⟨Or.inl rfl, make_rejects_zero_amounts wSt0 0 wMaker wMintA wMintB
    wSrcA 9 0 7 0 (Or.inl rfl)⟩

/-! ## Claim C6: re-Make on an existing (maker, seed) is rejected -/

/-- C6: when an open record already sits at the derived address of
(maker, seed), a second Make with the same pair (and otherwise valid
amounts) fails with the distinct duplicate-record error; the atomic
commit model means the original record and vault are untouched.
Moreover the storage is a map keyed by the derived address, so at most
one record exists per (maker, seed) at any time. -/
theorem make_rejects_duplicate (st : Chain) (now : Int)
    (maker mintA mintB makerSrcA : Addr)
    (seed deposit receive : Nat) (waitingTime : Int) (rec : Escrow)
    (hdup : st.escrows (escrowAddress maker seed) = some rec)
    (hd : deposit ≠ 0) (hr : receive ≠ 0) :
    make st now maker mintA mintB makerSrcA seed deposit receive
      waitingTime = .error .duplicateRecord ∧
    (∀ rec', st.escrows (escrowAddress maker seed) = some rec' →
      rec' = rec) := by
  constructor
  · unfold make
    rw [if_neg (by simp [hd, hr]), hdup]
  · intro rec' h
    rw [hdup] at h
    exact (Option.some.inj h).symm

theorem make_rejects_duplicate_witness :
    wSt1.escrows (escrowAddress wMaker 123) = some wRec ∧
    (10 : Nat) ≠ 0 ∧ (40 : Nat) ≠ 0 ∧
    make wSt1 0 wMaker wMintA wMintB wSrcA 123 10 40 0 =
      .error .duplicateRecord :=
  ⟨rfl, by decide, by decide,
    (make_rejects_duplicate wSt1 0 wMaker wMintA wMintB wSrcA 123 10 40 0
      wRec rfl (by decide) (by decide)).1⟩

/-! ## Claim C8: the derived-address wire contract -/

/-- C8: address derivation is deterministic and matches the published
wire contract: the escrow address is the program derivation over the
tag "escrow", the maker's bytes and the seed as 8 little-endian bytes
(which faithfully encode any u64 seed), and the vault address is the
associated-account derivation from (escrow address, mint_a); equal
inputs always produce equal addresses. -/
theorem derived_address_wire_contract (maker e mintA : Addr)
    (seed : Nat) (hseed : seed < 2 ^ 64) :
    escrowAddress maker seed =
      Addr.pda [escrowTag, addrBytes maker, seedLeBytes seed] ∧
    vaultAddress e mintA = Addr.assoc e mintA ∧
    (seedLeBytes seed).length = 8 ∧
    leBytesToNat (seedLeBytes seed) = seed ∧
    (∀ maker' seed', maker' = maker → seed' = seed →
      escrowAddress maker' seed' = escrowAddress maker seed ∧
      vaultAddress (escrowAddress maker' seed') mintA =
        vaultAddress (escrowAddress maker seed) mintA) := by
  refine ⟨rfl, rfl, natLeBytes_length 8 seed, ?_, ?_⟩
  · exact leBytesToNat_natLeBytes 8 seed (by norm_num at hseed ⊢; omega)
  · intro maker' seed' hm hs
    rw [hm, hs]
    exact ⟨rfl, rfl⟩

theorem derived_address_wire_contract_witness :
    123 < 2 ^ 64 ∧
    escrowAddress wMaker 123 =
      Addr.pda [escrowTag, addrBytes wMaker, seedLeBytes 123] ∧
    leBytesToNat (seedLeBytes 123) = 123 :=
  ⟨by norm_num,
    (derived_address_wire_contract wMaker wEscrow wMintA 123
      (by norm_num)).1,
    (derived_address_wire_contract wMaker wEscrow wMintA 123
      (by norm_num)).2.2.2.1⟩

/-! ## Address disequalities -/

theorem ata_ne_of_owner (o₁ m₁ o₂ m₂ : Addr) (h : o₁ ≠ o₂) :
    ataAddress o₁ m₁ ≠ ataAddress o₂ m₂ := by
  intro hc
  simp only [ataAddress, Addr.assoc.injEq] at hc
  exact h hc.1

theorem ata_ne_of_mint (o₁ m₁ o₂ m₂ : Addr) (h : m₁ ≠ m₂) :
    ataAddress o₁ m₁ ≠ ataAddress o₂ m₂ := by
  intro hc
  simp only [ataAddress, Addr.assoc.injEq] at hc
  exact h hc.2

theorem amountOf_eq_of_lookup (st st' : Chain) (a : Addr)
    (h : st'.tokenAccts a = st.tokenAccts a) :
    amountOf st' a = amountOf st a := by
  unfold amountOf
  rw [h]

/-! ## Take: success and rejection behaviour -/

/-- Full description of a successful Take at or after the unlock time:
the taker pays `receive` of mint_b to the maker, receives the vault's
full balance of mint_a, and the vault and record are closed; all other
accounts and records are untouched. -/
theorem take_ok_spec (st : Chain) (now : Int) (taker : Addr)
    (rec : Escrow) (vAcct tbAcct : TokenAccount)
    (hrec : st.escrows (escrowAddress rec.maker rec.seed) = some rec)
    (htime : rec.unlockTime ≤ now)
    (hvault : st.tokenAccts (vaultAddress (escrowAddress rec.maker
      rec.seed) rec.mintA) = some vAcct)
    (hvm : vAcct.mint = rec.mintA)
    (hvo : vAcct.owner = escrowAddress rec.maker rec.seed)
    (htb : st.tokenAccts (ataAddress taker rec.mintB) = some tbAcct)
    (htbm : tbAcct.mint = rec.mintB) (htbo : tbAcct.owner = taker)
    (htba : rec.receive ≤ tbAcct.amount)
    (hmb : ∀ acct, st.tokenAccts (ataAddress rec.maker rec.mintB) =
      some acct → acct.mint = rec.mintB)
    (hta : ∀ acct, st.tokenAccts (ataAddress taker rec.mintA) =
      some acct → acct.mint = rec.mintA)
    (hmint : rec.mintA ≠ rec.mintB)
    (htm : taker ≠ rec.maker)
    (hkey : taker.isKey = true) :
    ∃ st', take st now taker (escrowAddress rec.maker rec.seed) =
        .ok st' ∧
      amountOf st' (ataAddress taker rec.mintA) =
        amountOf st (ataAddress taker rec.mintA) + vAcct.amount ∧
      amountOf st' (ataAddress rec.maker rec.mintB) =
        amountOf st (ataAddress rec.maker rec.mintB) + rec.receive ∧
      st'.tokenAccts (vaultAddress (escrowAddress rec.maker rec.seed)
        rec.mintA) = none ∧
      st'.escrows (escrowAddress rec.maker rec.seed) = none ∧
      (∀ x, x ≠ ataAddress taker rec.mintB →
        x ≠ ataAddress rec.maker rec.mintB →
        x ≠ vaultAddress (escrowAddress rec.maker rec.seed) rec.mintA →
        x ≠ ataAddress taker rec.mintA →
        st'.tokenAccts x = st.tokenAccts x) ∧
      (∀ f, f ≠ escrowAddress rec.maker rec.seed →
        st'.escrows f = st.escrows f) := by
  have hMBneTB : ataAddress rec.maker rec.mintB ≠
      ataAddress taker rec.mintB := ata_ne_of_owner _ _ _ _ (Ne.symm htm)
  have hVneTB : vaultAddress (escrowAddress rec.maker rec.seed)
      rec.mintA ≠ ataAddress taker rec.mintB :=
    ata_ne_of_mint _ _ _ _ hmint
  have hTAneTB : ataAddress taker rec.mintA ≠ ataAddress taker rec.mintB :=
    ata_ne_of_mint _ _ _ _ hmint
  have hVneMB : vaultAddress (escrowAddress rec.maker rec.seed)
      rec.mintA ≠ ataAddress rec.maker rec.mintB :=
    ata_ne_of_mint _ _ _ _ hmint
  have hTAneMB : ataAddress taker rec.mintA ≠
      ataAddress rec.maker rec.mintB := ata_ne_of_mint _ _ _ _ hmint
  have hTAneV : ataAddress taker rec.mintA ≠
      vaultAddress (escrowAddress rec.maker rec.seed) rec.mintA :=
    ata_ne_of_owner _ _ _ _
      (key_ne_escrowAddress taker hkey rec.maker rec.seed)
  have hMBneV : ataAddress rec.maker rec.mintB ≠
      vaultAddress (escrowAddress rec.maker rec.seed) rec.mintA :=
    ata_ne_of_mint _ _ _ _ (Ne.symm hmint)
  have hMBneTA : ataAddress rec.maker rec.mintB ≠
      ataAddress taker rec.mintA := ata_ne_of_mint _ _ _ _ (Ne.symm hmint)
  have hVneTA : vaultAddress (escrowAddress rec.maker rec.seed)
      rec.mintA ≠ ataAddress taker rec.mintA :=
    ata_ne_of_owner _ _ _ _
      (Ne.symm (key_ne_escrowAddress taker hkey rec.maker rec.seed))
  obtain ⟨st₁, hdeb1, hsrc1, hfr1, hesc1⟩ :=
    debit_ok st rec.mintB (ataAddress taker rec.mintB) taker rec.receive
      tbAcct htb htbm htbo htba
  have hmb1 : ∀ acct, st₁.tokenAccts (ataAddress rec.maker rec.mintB) =
      some acct → acct.mint = rec.mintB := by
    rw [hfr1 _ hMBneTB]
    exact hmb
  obtain ⟨st₂, hcred1, ⟨mbAcct, hmb2, hmbm, hmba⟩, hfr2, hesc2⟩ :=
    credit_ok st₁ rec.mintB rec.maker (ataAddress rec.maker rec.mintB)
      rec.receive hmb1
  have h2v : st₂.tokenAccts (vaultAddress (escrowAddress rec.maker
      rec.seed) rec.mintA) = some vAcct := by
    rw [hfr2 _ hVneMB, hfr1 _ hVneTB]
    exact hvault
  obtain ⟨st₃, hdeb2, hv3, hfr3, hesc3⟩ :=
    debit_ok st₂ rec.mintA
      (vaultAddress (escrowAddress rec.maker rec.seed) rec.mintA)
      (escrowAddress rec.maker rec.seed) vAcct.amount vAcct h2v hvm hvo
      le_rfl
  have hta3 : ∀ acct, st₃.tokenAccts (ataAddress taker rec.mintA) =
      some acct → acct.mint = rec.mintA := by
    rw [hfr3 _ hTAneV, hfr2 _ hTAneMB, hfr1 _ hTAneTB]
    exact hta
  obtain ⟨st₄, hcred2, ⟨taAcct, hta4, htam, htaa⟩, hfr4, hesc4⟩ :=
    credit_ok st₃ rec.mintA taker (ataAddress taker rec.mintA)
      vAcct.amount hta3
  have hlt : ¬ (now < rec.unlockTime) := not_lt.mpr htime
  refine ⟨setEsc (closeTok st₄ (vaultAddress (escrowAddress rec.maker
      rec.seed) rec.mintA)) (escrowAddress rec.maker rec.seed) none,
    ?_, ?_, ?_, ?_, ?_, ?_, ?_⟩
  · simp only [take, hrec, hlt, vaultAddress,
      ataAddress] at hdeb1 hcred1 h2v hdeb2 hcred2 ⊢
    simp only [hdeb1, hcred1, h2v, hdeb2, hcred2]
    simp
  · have hfin : (setEsc (closeTok st₄ (vaultAddress (escrowAddress
        rec.maker rec.seed) rec.mintA)) (escrowAddress rec.maker
        rec.seed) none).tokenAccts (ataAddress taker rec.mintA) =
        some taAcct := by
      rw [setEsc_tokenAccts]
      unfold closeTok
      rw [setTok_other _ _ _ _ hTAneV]
      exact hta4
    have h30 : amountOf st₃ (ataAddress taker rec.mintA) =
        amountOf st (ataAddress taker rec.mintA) := by
      apply amountOf_eq_of_lookup
      rw [hfr3 _ hTAneV, hfr2 _ hTAneMB, hfr1 _ hTAneTB]
    have hfinA : amountOf (setEsc (closeTok st₄ (vaultAddress
        (escrowAddress rec.maker rec.seed) rec.mintA)) (escrowAddress
        rec.maker rec.seed) none) (ataAddress taker rec.mintA) =
        taAcct.amount := by
      simp [amountOf, hfin]
    rw [hfinA, htaa, h30]
  · have hfin : (setEsc (closeTok st₄ (vaultAddress (escrowAddress
        rec.maker rec.seed) rec.mintA)) (escrowAddress rec.maker
        rec.seed) none).tokenAccts (ataAddress rec.maker rec.mintB) =
        some mbAcct := by
      rw [setEsc_tokenAccts]
      unfold closeTok
      rw [setTok_other _ _ _ _ hMBneV, hfr4 _ hMBneTA, hfr3 _ hMBneV]
      exact hmb2
    have h10 : amountOf st₁ (ataAddress rec.maker rec.mintB) =
        amountOf st (ataAddress rec.maker rec.mintB) := by
      apply amountOf_eq_of_lookup
      rw [hfr1 _ hMBneTB]
    have hfinB : amountOf (setEsc (closeTok st₄ (vaultAddress
        (escrowAddress rec.maker rec.seed) rec.mintA)) (escrowAddress
        rec.maker rec.seed) none) (ataAddress rec.maker rec.mintB) =
        mbAcct.amount := by
      simp [amountOf, hfin]
    rw [hfinB, hmba, h10]
  · rw [setEsc_tokenAccts]
    unfold closeTok
    rw [setTok_same]
  · rw [setEsc_same]
  · intro x hxTB hxMB hxV hxTA
    rw [setEsc_tokenAccts]
    unfold closeTok
    rw [setTok_other _ _ _ _ hxV, hfr4 _ hxTA, hfr3 _ hxV, hfr2 _ hxMB,
      hfr1 _ hxTB]
  · intro f hf
    rw [setEsc_other _ _ _ _ hf]
    unfold closeTok
    rw [setTok_escrows, hesc4, hesc3, hesc2, hesc1]

/-- A Take against an address that holds no record fails as not-found. -/
theorem take_notFound (st : Chain) (now : Int) (taker escrowA : Addr)
    (h : st.escrows escrowA = none) :
    take st now taker escrowA = .error .notFound := by
  unfold take
  rw [h]

/-- A Take strictly before the unlock time fails with the distinct
"too early" timing error. -/
theorem take_tooEarly (st : Chain) (now : Int) (taker escrowA : Addr)
    (rec : Escrow) (hrec : st.escrows escrowA = some rec)
    (hlt : now < rec.unlockTime) :
    take st now taker escrowA = .error .tooEarly := by
  unfold take
  rw [hrec]
  simp [hlt]

/-! ## Claim C1: Take at or after unlock time succeeds exactly once -/

/-- C1: for an open record whose vault holds D and whose terms demand
`receive`, a Take executed at or after the stored unlock time (by a
funded taker distinct from the maker) succeeds: the taker's mint_a
balance grows by exactly D (the deposit held in custody), the maker's
mint_b balance grows by exactly `receive`, and the vault and the record
cease to exist; afterwards any further Take on the same record address
fails with the not-found error. -/
theorem take_succeeds_exactly_once (st : Chain) (now : Int)
    (taker : Addr) (rec : Escrow) (vAcct tbAcct : TokenAccount)
    (hrec : st.escrows (escrowAddress rec.maker rec.seed) = some rec)
    (htime : rec.unlockTime ≤ now)
    (hvault : st.tokenAccts (vaultAddress (escrowAddress rec.maker
      rec.seed) rec.mintA) = some vAcct)
    (hvm : vAcct.mint = rec.mintA)
    (hvo : vAcct.owner = escrowAddress rec.maker rec.seed)
    (htb : st.tokenAccts (ataAddress taker rec.mintB) = some tbAcct)
    (htbm : tbAcct.mint = rec.mintB) (htbo : tbAcct.owner = taker)
    (htba : rec.receive ≤ tbAcct.amount)
    (hmb : ∀ acct, st.tokenAccts (ataAddress rec.maker rec.mintB) =
      some acct → acct.mint = rec.mintB)
    (hta : ∀ acct, st.tokenAccts (ataAddress taker rec.mintA) =
      some acct → acct.mint = rec.mintA)
    (hmint : rec.mintA ≠ rec.mintB)
    (htm : taker ≠ rec.maker)
    (hkey : taker.isKey = true) :
    ∃ st', take st now taker (escrowAddress rec.maker rec.seed) =
        .ok st' ∧
      amountOf st' (ataAddress taker rec.mintA) =
        amountOf st (ataAddress taker rec.mintA) + vAcct.amount ∧
      amountOf st' (ataAddress rec.maker rec.mintB) =
        amountOf st (ataAddress rec.maker rec.mintB) + rec.receive ∧
      st'.tokenAccts (vaultAddress (escrowAddress rec.maker rec.seed)
        rec.mintA) = none ∧
      st'.escrows (escrowAddress rec.maker rec.seed) = none ∧
      (∀ now₂ taker₂, take st' now₂ taker₂
        (escrowAddress rec.maker rec.seed) = .error .notFound) := by
  obtain ⟨st', h1, h2, h3, h4, h5, _, _⟩ :=
    take_ok_spec st now taker rec vAcct tbAcct hrec htime hvault hvm hvo
      htb htbm htbo htba hmb hta hmint htm hkey
  exact ⟨st', h1, h2, h3, h4, h5,
    fun now₂ taker₂ => take_notFound st' now₂ taker₂ _ h5⟩

theorem take_succeeds_exactly_once_witness :
    wSt1.escrows (escrowAddress wRec.maker wRec.seed) = some wRec ∧
    wRec.unlockTime ≤ 300 ∧
    wSt1.tokenAccts (vaultAddress (escrowAddress wRec.maker wRec.seed)
      wRec.mintA) = some ⟨wMintA, wEscrow, 10⟩ ∧
    ∃ st', take wSt1 300 wTaker (escrowAddress wRec.maker wRec.seed) =
        .ok st' ∧
      amountOf st' (ataAddress wTaker wRec.mintA) =
        amountOf wSt1 (ataAddress wTaker wRec.mintA) + 10 ∧
      amountOf st' (ataAddress wRec.maker wRec.mintB) =
        amountOf wSt1 (ataAddress wRec.maker wRec.mintB) + wRec.receive ∧
      st'.tokenAccts (vaultAddress (escrowAddress wRec.maker wRec.seed)
        wRec.mintA) = none ∧
      st'.escrows (escrowAddress wRec.maker wRec.seed) = none ∧
      (∀ now₂ taker₂, take st' now₂ taker₂
        (escrowAddress wRec.maker wRec.seed) = .error .notFound) :=
  ⟨rfl, by decide, rfl,
    take_succeeds_exactly_once wSt1 300 wTaker wRec ⟨wMintA, wEscrow, 10⟩
      ⟨wMintB, wTaker, 500⟩ rfl (by decide) rfl rfl rfl rfl rfl rfl
      (by decide) (fun acct h => nomatch h) (fun acct h => nomatch h)
      (by decide) (by decide) rfl⟩

/-! ## Claim C3: Take before unlock time fails, retry can succeed -/

/-- C3: a Take strictly before the record's unlock time fails with the
distinct "too early" timing error (the atomic commit model means no
balance or stored state changes), and the same Take resubmitted at a
time at or after the unlock time succeeds. -/
theorem take_too_early_then_succeeds (st : Chain) (now₁ now₂ : Int)
    (taker : Addr) (rec : Escrow) (vAcct tbAcct : TokenAccount)
    (hrec : st.escrows (escrowAddress rec.maker rec.seed) = some rec)
    (hlt : now₁ < rec.unlockTime)
    (hge : rec.unlockTime ≤ now₂)
    (hvault : st.tokenAccts (vaultAddress (escrowAddress rec.maker
      rec.seed) rec.mintA) = some vAcct)
    (hvm : vAcct.mint = rec.mintA)
    (hvo : vAcct.owner = escrowAddress rec.maker rec.seed)
    (htb : st.tokenAccts (ataAddress taker rec.mintB) = some tbAcct)
    (htbm : tbAcct.mint = rec.mintB) (htbo : tbAcct.owner = taker)
    (htba : rec.receive ≤ tbAcct.amount)
    (hmb : ∀ acct, st.tokenAccts (ataAddress rec.maker rec.mintB) =
      some acct → acct.mint = rec.mintB)
    (hta : ∀ acct, st.tokenAccts (ataAddress taker rec.mintA) =
      some acct → acct.mint = rec.mintA)
    (hmint : rec.mintA ≠ rec.mintB)
    (htm : taker ≠ rec.maker)
    (hkey : taker.isKey = true) :
    take st now₁ taker (escrowAddress rec.maker rec.seed) =
      .error .tooEarly ∧
    ∃ st', take st now₂ taker (escrowAddress rec.maker rec.seed) =
      .ok st' := by
  constructor
  · exact take_tooEarly st now₁ taker _ rec hrec hlt
  · obtain ⟨st', h1, _⟩ :=
      take_ok_spec st now₂ taker rec vAcct tbAcct hrec hge hvault hvm hvo
        htb htbm htbo htba hmb hta hmint htm hkey
    exact ⟨st', h1⟩

theorem take_too_early_then_succeeds_witness :
    wSt1.escrows (escrowAddress wRec.maker wRec.seed) = some wRec ∧
    (0 : Int) < wRec.unlockTime ∧
    take wSt1 0 wTaker (escrowAddress wRec.maker wRec.seed) =
      .error .tooEarly ∧
    ∃ st', take wSt1 300 wTaker (escrowAddress wRec.maker wRec.seed) =
      .ok st' :=
  ⟨rfl, by decide,
    (take_too_early_then_succeeds wSt1 0 300 wTaker wRec
      ⟨wMintA, wEscrow, 10⟩ ⟨wMintB, wTaker, 500⟩ rfl (by decide)
      (by decide) rfl rfl rfl rfl rfl rfl (by decide)
      (fun acct h => nomatch h) (fun acct h => nomatch h) (by decide)
      (by decide) rfl).1,
    (take_too_early_then_succeeds wSt1 0 300 wTaker wRec
      ⟨wMintA, wEscrow, 10⟩ ⟨wMintB, wTaker, 500⟩ rfl (by decide)
      (by decide) rfl rfl rfl rfl rfl rfl (by decide)
      (fun acct h => nomatch h) (fun acct h => nomatch h) (by decide)
      (by decide) rfl).2⟩

/-! ## Refund: success and rejection behaviour -/

/-- Full description of a successful Refund by the stored maker: the
vault's full balance of mint_a returns to the maker's receiving
account, the vault and the record are closed, everything else is
untouched; the environment-supplied current time is irrelevant. -/
theorem refund_ok_spec (st : Chain) (now : Int) (rec : Escrow)
    (vAcct : TokenAccount)
    (hrec : st.escrows (escrowAddress rec.maker rec.seed) = some rec)
    (hvault : st.tokenAccts (vaultAddress (escrowAddress rec.maker
      rec.seed) rec.mintA) = some vAcct)
    (hvm : vAcct.mint = rec.mintA)
    (hvo : vAcct.owner = escrowAddress rec.maker rec.seed)
    (hma : ∀ acct, st.tokenAccts (ataAddress rec.maker rec.mintA) =
      some acct → acct.mint = rec.mintA)
    (hkey : rec.maker.isKey = true) :
    ∃ st', refund st now rec.maker (escrowAddress rec.maker rec.seed) =
        .ok st' ∧
      amountOf st' (ataAddress rec.maker rec.mintA) =
        amountOf st (ataAddress rec.maker rec.mintA) + vAcct.amount ∧
      st'.tokenAccts (vaultAddress (escrowAddress rec.maker rec.seed)
        rec.mintA) = none ∧
      st'.escrows (escrowAddress rec.maker rec.seed) = none ∧
      (∀ x, x ≠ vaultAddress (escrowAddress rec.maker rec.seed)
        rec.mintA → x ≠ ataAddress rec.maker rec.mintA →
        st'.tokenAccts x = st.tokenAccts x) ∧
      (∀ f, f ≠ escrowAddress rec.maker rec.seed →
        st'.escrows f = st.escrows f) := by
  have hMAneV : ataAddress rec.maker rec.mintA ≠
      vaultAddress (escrowAddress rec.maker rec.seed) rec.mintA :=
    ata_ne_of_owner _ _ _ _
      (key_ne_escrowAddress rec.maker hkey rec.maker rec.seed)
  obtain ⟨st₁, hdeb, hv1, hfr1, hesc1⟩ :=
    debit_ok st rec.mintA
      (vaultAddress (escrowAddress rec.maker rec.seed) rec.mintA)
      (escrowAddress rec.maker rec.seed) vAcct.amount vAcct hvault hvm
      hvo le_rfl
  have hma1 : ∀ acct, st₁.tokenAccts (ataAddress rec.maker rec.mintA) =
      some acct → acct.mint = rec.mintA := by
    rw [hfr1 _ hMAneV]
    exact hma
  obtain ⟨st₂, hcred, ⟨maAcct, hma2, hmam, hmaa⟩, hfr2, hesc2⟩ :=
    credit_ok st₁ rec.mintA rec.maker (ataAddress rec.maker rec.mintA)
      vAcct.amount hma1
  refine ⟨setEsc (closeTok st₂ (vaultAddress (escrowAddress rec.maker
      rec.seed) rec.mintA)) (escrowAddress rec.maker rec.seed) none,
    ?_, ?_, ?_, ?_, ?_, ?_⟩
  · simp only [refund, hrec, vaultAddress,
      ataAddress] at hdeb hcred hvault ⊢
    simp only [hvault, hdeb, hcred]
    simp
  · have hfin : (setEsc (closeTok st₂ (vaultAddress (escrowAddress
        rec.maker rec.seed) rec.mintA)) (escrowAddress rec.maker
        rec.seed) none).tokenAccts (ataAddress rec.maker rec.mintA) =
        some maAcct := by
      rw [setEsc_tokenAccts]
      unfold closeTok
      rw [setTok_other _ _ _ _ hMAneV]
      exact hma2
    have h10 : amountOf st₁ (ataAddress rec.maker rec.mintA) =
        amountOf st (ataAddress rec.maker rec.mintA) := by
      apply amountOf_eq_of_lookup
      rw [hfr1 _ hMAneV]
    have hfinA : amountOf (setEsc (closeTok st₂ (vaultAddress
        (escrowAddress rec.maker rec.seed) rec.mintA)) (escrowAddress
        rec.maker rec.seed) none) (ataAddress rec.maker rec.mintA) =
        maAcct.amount := by
      simp [amountOf, hfin]
    rw [hfinA, hmaa, h10]
  · rw [setEsc_tokenAccts]
    unfold closeTok
    rw [setTok_same]
  · rw [setEsc_same]
  · intro x hxV hxMA
    rw [setEsc_tokenAccts]
    unfold closeTok
    rw [setTok_other _ _ _ _ hxV, hfr2 _ hxMA, hfr1 _ hxV]
  · intro f hf
    rw [setEsc_other _ _ _ _ hf]
    unfold closeTok
    rw [setTok_escrows, hesc2, hesc1]

/-- A Refund whose caller is not the stored maker fails with the
distinct authorization error. -/
theorem refund_unauthorized (st : Chain) (now : Int)
    (caller escrowA : Addr) (rec : Escrow)
    (hrec : st.escrows escrowA = some rec)
    (hcaller : caller ≠ rec.maker) :
    refund st now caller escrowA = .error .unauthorized := by
  unfold refund
  rw [hrec]
  simp [hcaller]

/-- A Refund against an address holding no record fails as not-found. -/
theorem refund_notFound (st : Chain) (now : Int)
    (caller escrowA : Addr) (h : st.escrows escrowA = none) :
    refund st now caller escrowA = .error .notFound := by
  unfold refund
  rw [h]

/-! ## Claim C4: Refund is for the stored maker only -/

/-- C4: for an open record whose vault holds D, Refund invoked by the
identity stored in the record's maker field succeeds, returns exactly D
units of mint_a to the maker's receiving account, and destroys both the
vault and the record; Refund invoked by any other identity fails with
the distinct authorization error (and, by the atomic commit model,
changes nothing). -/
theorem refund_returns_deposit_to_maker_only (st : Chain) (now : Int)
    (rec : Escrow) (vAcct : TokenAccount)
    (hrec : st.escrows (escrowAddress rec.maker rec.seed) = some rec)
    (hvault : st.tokenAccts (vaultAddress (escrowAddress rec.maker
      rec.seed) rec.mintA) = some vAcct)
    (hvm : vAcct.mint = rec.mintA)
    (hvo : vAcct.owner = escrowAddress rec.maker rec.seed)
    (hma : ∀ acct, st.tokenAccts (ataAddress rec.maker rec.mintA) =
      some acct → acct.mint = rec.mintA)
    (hkey : rec.maker.isKey = true) :
    (∃ st', refund st now rec.maker (escrowAddress rec.maker rec.seed) =
        .ok st' ∧
      amountOf st' (ataAddress rec.maker rec.mintA) =
        amountOf st (ataAddress rec.maker rec.mintA) + vAcct.amount ∧
      st'.tokenAccts (vaultAddress (escrowAddress rec.maker rec.seed)
        rec.mintA) = none ∧
      st'.escrows (escrowAddress rec.maker rec.seed) = none) ∧
    (∀ caller, caller ≠ rec.maker →
      refund st now caller (escrowAddress rec.maker rec.seed) =
        .error .unauthorized) := by
  constructor
  · obtain ⟨st', h1, h2, h3, h4, _, _⟩ :=
      refund_ok_spec st now rec vAcct hrec hvault hvm hvo hma hkey
    exact ⟨st', h1, h2, h3, h4⟩
  · intro caller hcaller
    exact refund_unauthorized st now caller _ rec hrec hcaller

theorem refund_returns_deposit_to_maker_only_witness :
    wSt1.escrows (escrowAddress wRec.maker wRec.seed) = some wRec ∧
    wOther ≠ wRec.maker ∧
    (∃ st', refund wSt1 0 wMaker (escrowAddress wRec.maker wRec.seed) =
        .ok st' ∧
      amountOf st' (ataAddress wRec.maker wRec.mintA) =
        amountOf wSt1 (ataAddress wRec.maker wRec.mintA) + 10 ∧
      st'.tokenAccts (vaultAddress (escrowAddress wRec.maker wRec.seed)
        wRec.mintA) = none ∧
      st'.escrows (escrowAddress wRec.maker wRec.seed) = none) ∧
    refund wSt1 0 wOther (escrowAddress wRec.maker wRec.seed) =
      .error .unauthorized :=
  ⟨rfl, by decide,
    (refund_returns_deposit_to_maker_only wSt1 0 wRec
      ⟨wMintA, wEscrow, 10⟩ rfl rfl rfl rfl
      (by intro acct h; injection h with h2; subst h2; exact rfl) rfl).1,
    (refund_returns_deposit_to_maker_only wSt1 0 wRec
      ⟨wMintA, wEscrow, 10⟩ rfl rfl rfl rfl
      (by intro acct h; injection h with h2; subst h2; exact rfl) rfl).2
      wOther (by decide)⟩

/-! ## Claim C7: no time lock on Refund -/

/-- C7: Refund never consults the environment-supplied current time:
its result is identical for any two submission times, and in particular
the stored maker can refund an open, funded record even strictly before
the record's unlock time. -/
theorem refund_ignores_unlock_time (st : Chain) (now : Int)
    (rec : Escrow) (vAcct : TokenAccount)
    (hrec : st.escrows (escrowAddress rec.maker rec.seed) = some rec)
    (hvault : st.tokenAccts (vaultAddress (escrowAddress rec.maker
      rec.seed) rec.mintA) = some vAcct)
    (hvm : vAcct.mint = rec.mintA)
    (hvo : vAcct.owner = escrowAddress rec.maker rec.seed)
    (hma : ∀ acct, st.tokenAccts (ataAddress rec.maker rec.mintA) =
      some acct → acct.mint = rec.mintA)
    (hkey : rec.maker.isKey = true)
    (hlt : now < rec.unlockTime) :
    (∀ n₁ n₂ caller a, refund st n₁ caller a = refund st n₂ caller a) ∧
    (∃ st', refund st now rec.maker (escrowAddress rec.maker rec.seed) =
        .ok st' ∧
      st'.escrows (escrowAddress rec.maker rec.seed) = none) := by
  constructor
  · intro n₁ n₂ caller a
    rfl
  · obtain ⟨st', h1, _, _, h4, _, _⟩ :=
      refund_ok_spec st now rec vAcct hrec hvault hvm hvo hma hkey
    exact ⟨st', h1, h4⟩

theorem refund_ignores_unlock_time_witness :
    (0 : Int) < wRec.unlockTime ∧
    refund wSt1 0 wMaker (escrowAddress wRec.maker wRec.seed) =
      refund wSt1 999 wMaker (escrowAddress wRec.maker wRec.seed) ∧
    (∃ st', refund wSt1 0 wMaker (escrowAddress wRec.maker wRec.seed) =
        .ok st' ∧
      st'.escrows (escrowAddress wRec.maker wRec.seed) = none) :=
  ⟨by decide,
    (refund_ignores_unlock_time wSt1 0 wRec ⟨wMintA, wEscrow, 10⟩ rfl
      rfl rfl rfl (by intro acct h; injection h with h2; subst h2; exact rfl) rfl
      (by decide)).1 0 999 wMaker (escrowAddress wRec.maker wRec.seed),
    (refund_ignores_unlock_time wSt1 0 wRec ⟨wMintA, wEscrow, 10⟩ rfl
      rfl rfl rfl (by intro acct h; injection h with h2; subst h2; exact rfl) rfl
      (by decide)).2⟩

/-! ## Whitelist transfer hook

Embedded from
`programs/whitelist-transfer-hook/src/instructions/whitelist_operations.rs`
and `programs/whitelist-transfer-hook/src/state/whitelist.rs`:
a `Whitelist` account stores only its bump; its existence at the PDA
derived from `[b"whitelist", user]` means the user is whitelisted.
`AddToWhitelist` requires only that `admin` signs (it is `Signer` and
the `init` payer; no `has_one`, no `address =`, no stored authority is
compared); `RemoveFromWhitelist` likewise requires only a signature and
closes the account with `close = admin`, sending its lamports to the
calling signer. -/

/-- Embedded from `state/whitelist.rs`: the Whitelist account data. -/
structure Whitelist where
  bump : Nat
deriving DecidableEq, Repr

/-- The ASCII bytes of the literal tag "whitelist". -/
def whitelistTag : List Nat := [119, 104, 105, 116, 101, 108, 105, 115, 116]

/-- The whitelist PDA for a user: seeds `[b"whitelist", user.as_ref()]`. -/
def whitelistAddress (user : Addr) : Addr :=
  .pda [whitelistTag, addrBytes user]

/-- State touched by the whitelist instructions: the whitelist accounts
and every account's lamport balance. -/
structure HookState where
  whitelistAccts : Addr → Option Whitelist
  lamports : Addr → Nat

/-- Errors surfaced by the Anchor account constraints of the
whitelist instructions. -/
inductive HookErr where
  | missingSignature
  | alreadyInUse
  | accountNotInitialized
  | insufficientFunds
deriving DecidableEq, Repr

/-- Embedded from `AddToWhitelist` and `add_to_whitelist`: the only
checks are that `admin` signed, that the PDA for `user` is not yet
initialized (`init`), and that the paying admin can fund the rent;
the handler stores the canonical bump. No stored or configured
authority is compared against `admin`. -/
def addToWhitelist (st : HookState) (admin : Addr) (adminSigned : Bool)
    (user : Addr) (rent bump : Nat) : Except HookErr HookState :=
  if ¬ adminSigned then .error .missingSignature
  else
    match st.whitelistAccts (whitelistAddress user) with
    | some _ => .error .alreadyInUse
    | none =>
      if st.lamports admin < rent then .error .insufficientFunds
      else
        .ok { whitelistAccts := fun a =>
                if a = whitelistAddress user then some ⟨bump⟩
                else st.whitelistAccts a,
              lamports := fun a =>
                if a = whitelistAddress user then st.lamports a + rent
                else if a = admin then st.lamports admin - rent
                else st.lamports a }

/-- Embedded from `RemoveFromWhitelist` and `remove_from_whitelist`:
the only checks are that `admin` signed and that the PDA for `user`
exists (with its stored bump reproducing the address); `close = admin`
wipes the account and credits its lamports to the calling signer.
No stored or configured authority is compared against `admin`. -/
def removeFromWhitelist (st : HookState) (admin : Addr)
    (adminSigned : Bool) (user : Addr) : Except HookErr HookState :=
  if ¬ adminSigned then .error .missingSignature
  else
    match st.whitelistAccts (whitelistAddress user) with
    | none => .error .accountNotInitialized
    | some _ =>
      .ok { whitelistAccts := fun a =>
              if a = whitelistAddress user then none
              else st.whitelistAccts a,
            lamports := fun a =>
              if a = admin then
                st.lamports admin + st.lamports (whitelistAddress user)
              else if a = whitelistAddress user then 0
              else st.lamports a }

/-! ## Claim C10: the whitelist instructions accept any signer -/

/-- C10: neither whitelist operation compares the admin signer against
any stored or configured authority: every signing (key-pair) account
with enough lamports can add any user (the marker record then exists),
and every signing account can remove any whitelisted user, receiving
the closed record's lamport reserve itself. The admin is universally
quantified and unconstrained except for signing and paying. -/
theorem whitelist_any_signer_is_admin (st : HookState)
    (admin user : Addr) (rent bump : Nat)
    (hkey : admin.isKey = true) :
    (st.whitelistAccts (whitelistAddress user) = none →
      rent ≤ st.lamports admin →
      ∃ st', addToWhitelist st admin true user rent bump = .ok st' ∧
        st'.whitelistAccts (whitelistAddress user) = some ⟨bump⟩) ∧
    (∀ wl, st.whitelistAccts (whitelistAddress user) = some wl →
      ∃ st', removeFromWhitelist st admin true user = .ok st' ∧
        st'.whitelistAccts (whitelistAddress user) = none ∧
        st'.lamports admin =
          st.lamports admin + st.lamports (whitelistAddress user)) := by
  have hne : admin ≠ whitelistAddress user :=
    key_ne_pda admin hkey _
  constructor
  · intro hnone hrent
    refine ⟨⟨fun a =>
        if a = whitelistAddress user then some ⟨bump⟩
        else st.whitelistAccts a,
      fun a =>
        if a = whitelistAddress user then st.lamports a + rent
        else if a = admin then st.lamports admin - rent
        else st.lamports a⟩, ?_, ?_⟩
    · unfold addToWhitelist
      rw [hnone]
      simp [Nat.not_lt.mpr hrent]
    · simp
  · intro wl hsome
    refine ⟨⟨fun a =>
        if a = whitelistAddress user then none
        else st.whitelistAccts a,
      fun a =>
        if a = admin then
          st.lamports admin + st.lamports (whitelistAddress user)
        else if a = whitelistAddress user then 0
        else st.lamports a⟩, ?_, ?_, ?_⟩
    · unfold removeFromWhitelist
      rw [hsome]
      simp
    · simp
    · simp [hne]

theorem whitelist_any_signer_is_admin_witness :
    (Addr.key 9).isKey = true ∧
    (∃ st', addToWhitelist ⟨fun _ => none, fun _ => 50⟩ (.key 9) true
        (.key 7) 20 255 = .ok st' ∧
      st'.whitelistAccts (whitelistAddress (.key 7)) = some ⟨255⟩) ∧
    (∃ st', removeFromWhitelist
        ⟨fun a => if a = whitelistAddress (.key 7) then some ⟨255⟩
          else none, fun _ => 50⟩ (.key 8) true (.key 7) = .ok st' ∧
      st'.whitelistAccts (whitelistAddress (.key 7)) = none ∧
      st'.lamports (.key 8) = 50 + 50) :=
  ⟨rfl,
    (whitelist_any_signer_is_admin ⟨fun _ => none, fun _ => 50⟩ (.key 9)
      (.key 7) 20 255 rfl).1 rfl (by decide),
    (whitelist_any_signer_is_admin
      ⟨fun a => if a = whitelistAddress (.key 7) then some ⟨255⟩
        else none, fun _ => 50⟩ (.key 8) (.key 7) 20 255 rfl).2
      ⟨255⟩ (by simp)⟩

/-! ## Inversion and frame lemmas for the step analysis -/

/-- Inversion of a successful debit. -/
theorem debit_ok_inv (st : Chain) (mint src owner : Addr) (amt : Nat)
    (st' : Chain) (h : debit st mint src owner amt = .ok st') :
    ∃ acct, st.tokenAccts src = some acct ∧ acct.mint = mint ∧
      acct.owner = owner ∧ amt ≤ acct.amount ∧
      st' = setTok st src
        (some { acct with amount := acct.amount - amt }) := by
  unfold debit at h
  split at h
  · simp at h
  · rename_i acct hl
    split at h
    · rename_i hm
      split at h
      · rename_i ho
        split at h
        · rename_i ha
          exact ⟨acct, hl, hm, ho, ha, (Except.ok.inj h).symm⟩
        · simp at h
      · simp at h
    · simp at h

/-- Inversion of a successful credit. -/
theorem credit_ok_inv (st : Chain) (mint owner dst : Addr) (amt : Nat)
    (st' : Chain) (h : credit st mint owner dst amt = .ok st') :
    (st.tokenAccts dst = none ∧
      st' = setTok st dst (some ⟨mint, owner, amt⟩)) ∨
    (∃ acct, st.tokenAccts dst = some acct ∧ acct.mint = mint ∧
      st' = setTok st dst
        (some { acct with amount := acct.amount + amt })) := by
  unfold credit at h
  split at h
  · rename_i hl
    exact Or.inl ⟨hl, (Except.ok.inj h).symm⟩
  · rename_i acct hl
    split at h
    · rename_i hm
      exact Or.inr ⟨acct, hl, hm, (Except.ok.inj h).symm⟩
    · simp at h

/-- A successful debit changes only the source token account. -/
theorem debit_frame (st : Chain) (mint src owner : Addr) (amt : Nat)
    (st' : Chain) (h : debit st mint src owner amt = .ok st') :
    (∀ x, x ≠ src → st'.tokenAccts x = st.tokenAccts x) ∧
    st'.escrows = st.escrows := by
  obtain ⟨acct, _, _, _, _, rfl⟩ := debit_ok_inv st mint src owner amt st' h
  exact ⟨fun x hx => setTok_other st src x _ hx, rfl⟩

/-- A successful credit changes only the destination token account. -/
theorem credit_frame (st : Chain) (mint owner dst : Addr) (amt : Nat)
    (st' : Chain) (h : credit st mint owner dst amt = .ok st') :
    (∀ x, x ≠ dst → st'.tokenAccts x = st.tokenAccts x) ∧
    st'.escrows = st.escrows := by
  rcases credit_ok_inv st mint owner dst amt st' h with
    ⟨_, rfl⟩ | ⟨acct, _, _, rfl⟩ <;>
    exact ⟨fun x hx => setTok_other st dst x _ hx, rfl⟩

/-- Forward analysis of a successful Make: exactly which state it
creates and which accounts it can possibly touch. -/
theorem make_ok_frame (st : Chain) (now : Int)
    (maker mintA mintB makerSrcA : Addr)
    (seed deposit receive : Nat) (waitingTime : Int) (st' : Chain)
    (h : make st now maker mintA mintB makerSrcA seed deposit receive
      waitingTime = .ok st') :
    deposit ≠ 0 ∧
    st.escrows (escrowAddress maker seed) = none ∧
    st'.escrows (escrowAddress maker seed) =
      some ⟨seed, maker, mintA, mintB, receive, now + waitingTime, 0⟩ ∧
    (∀ f, f ≠ escrowAddress maker seed → st'.escrows f = st.escrows f) ∧
    st'.tokenAccts (vaultAddress (escrowAddress maker seed) mintA) =
      some ⟨mintA, escrowAddress maker seed, deposit⟩ ∧
    (∃ acct, st.tokenAccts makerSrcA = some acct ∧
      acct.owner = maker) ∧
    makerSrcA ≠ vaultAddress (escrowAddress maker seed) mintA ∧
    (∀ x, x ≠ vaultAddress (escrowAddress maker seed) mintA →
      x ≠ makerSrcA → st'.tokenAccts x = st.tokenAccts x) := by
  unfold make at h
  split at h
  · simp at h
  · rename_i hz
    split at h
    · simp at h
    · rename_i hesc
      split at h
      · simp at h
      · rename_i st₃ hdeb
        split at h
        · simp at h
        · rename_i st₄ hcred
          have hst' : st' = st₄ := (Except.ok.inj h).symm
          subst hst'
          have hd : deposit ≠ 0 := fun hh => hz (Or.inl hh)
          obtain ⟨acct, hacct, hm, ho, ha, hst3⟩ :=
            debit_ok_inv _ _ _ _ _ _ hdeb
          subst hst3
          have hsrcne : makerSrcA ≠
              vaultAddress (escrowAddress maker seed) mintA := by
            intro hh
            rw [hh, setTok_same] at hacct
            have hae : acct =
                ⟨mintA, escrowAddress maker seed, 0⟩ :=
              (Option.some.inj hacct).symm
            rw [hae] at ha
            exact hd (Nat.le_zero.mp ha)
          have hsrc0 : st.tokenAccts makerSrcA = some acct := by
            rw [setTok_other _ _ _ _ hsrcne, setEsc_tokenAccts] at hacct
            exact hacct
          have h3v : (setTok (setTok (setEsc st (escrowAddress maker
              seed) (some ⟨seed, maker, mintA, mintB, receive,
              now + waitingTime, 0⟩)) (vaultAddress (escrowAddress
              maker seed) mintA) (some ⟨mintA, escrowAddress maker seed,
              0⟩)) makerSrcA (some { acct with amount :=
              acct.amount - deposit })).tokenAccts
              (vaultAddress (escrowAddress maker seed) mintA) =
              some ⟨mintA, escrowAddress maker seed, 0⟩ := by
            rw [setTok_other _ _ _ _ (Ne.symm hsrcne), setTok_same]
          rcases credit_ok_inv _ _ _ _ _ _ hcred with
            ⟨hnone, hst4⟩ | ⟨acct', hacct', hm', hst4⟩
          · rw [h3v] at hnone
            simp at hnone
          · rw [h3v] at hacct'
            have hae : acct' = ⟨mintA, escrowAddress maker seed, 0⟩ :=
              (Option.some.inj hacct').symm
            subst hae
            subst hst4
            refine ⟨hd, hesc, ?_, ?_, ?_, ⟨acct, hsrc0, ho⟩, hsrcne, ?_⟩
            · rw [setTok_escrows, setTok_escrows, setTok_escrows,
                setEsc_same]
            · intro f hf
              rw [setTok_escrows, setTok_escrows, setTok_escrows,
                setEsc_other _ _ _ _ hf]
            · rw [setTok_same]
              simp
            · intro x hxv hxs
              rw [setTok_other _ _ _ _ hxv, setTok_other _ _ _ _ hxs,
                setTok_other _ _ _ _ hxv, setEsc_tokenAccts]

/-- Forward analysis of a successful Take: the record it consumed, the
time-lock fact, and which accounts it can possibly touch. -/
theorem take_ok_frame (st : Chain) (now : Int) (taker escrowA : Addr)
    (st' : Chain) (h : take st now taker escrowA = .ok st') :
    ∃ rec, st.escrows escrowA = some rec ∧
      escrowA = escrowAddress rec.maker rec.seed ∧
      rec.unlockTime ≤ now ∧
      st'.escrows escrowA = none ∧
      (∀ f, f ≠ escrowA → st'.escrows f = st.escrows f) ∧
      st'.tokenAccts (vaultAddress escrowA rec.mintA) = none ∧
      (∀ x, x ≠ ataAddress taker rec.mintB →
        x ≠ ataAddress rec.maker rec.mintB →
        x ≠ vaultAddress escrowA rec.mintA →
        x ≠ ataAddress taker rec.mintA →
        st'.tokenAccts x = st.tokenAccts x) := by
  unfold take at h
  split at h
  · simp at h
  · rename_i rec hrec
    split at h
    · simp at h
    · rename_i hnl
      split at h
      · rename_i hder
        split at h
        · simp at h
        · rename_i st₁ hdeb1
          split at h
          · simp at h
          · rename_i st₂ hcred1
            split at h
            · simp at h
            · rename_i vAcct hv
              split at h
              · simp at h
              · rename_i st₃ hdeb2
                split at h
                · simp at h
                · rename_i st₄ hcred2
                  have hst' : st' = setEsc (closeTok st₄
                      (vaultAddress escrowA rec.mintA)) escrowA none :=
                    (Except.ok.inj h).symm
                  subst hst'
                  obtain ⟨hfr1, hesc1⟩ := debit_frame _ _ _ _ _ _ hdeb1
                  obtain ⟨hfr2, hesc2⟩ := credit_frame _ _ _ _ _ _ hcred1
                  obtain ⟨hfr3, hesc3⟩ := debit_frame _ _ _ _ _ _ hdeb2
                  obtain ⟨hfr4, hesc4⟩ := credit_frame _ _ _ _ _ _ hcred2
                  refine ⟨rec, hrec, hder, not_lt.mp hnl, ?_, ?_, ?_, ?_⟩
                  · rw [setEsc_same]
                  · intro f hf
                    rw [setEsc_other _ _ _ _ hf]
                    unfold closeTok
                    rw [setTok_escrows, hesc4, hesc3, hesc2, hesc1]
                  · rw [setEsc_tokenAccts]
                    unfold closeTok
                    rw [setTok_same]
                  · intro x hTB hMB hV hTA
                    rw [setEsc_tokenAccts]
                    unfold closeTok
                    rw [setTok_other _ _ _ _ hV, hfr4 _ hTA,
                      hfr3 _ hV, hfr2 _ hMB, hfr1 _ hTB]
      · simp at h

/-- Forward analysis of a successful Refund: the record it consumed,
the maker-authorization fact, and which accounts it can touch. -/
theorem refund_ok_frame (st : Chain) (now : Int)
    (caller escrowA : Addr) (st' : Chain)
    (h : refund st now caller escrowA = .ok st') :
    ∃ rec, st.escrows escrowA = some rec ∧
      caller = rec.maker ∧
      escrowA = escrowAddress rec.maker rec.seed ∧
      st'.escrows escrowA = none ∧
      (∀ f, f ≠ escrowA → st'.escrows f = st.escrows f) ∧
      st'.tokenAccts (vaultAddress escrowA rec.mintA) = none ∧
      (∀ x, x ≠ vaultAddress escrowA rec.mintA →
        x ≠ ataAddress rec.maker rec.mintA →
        st'.tokenAccts x = st.tokenAccts x) := by
  unfold refund at h
  split at h
  · simp at h
  · rename_i rec hrec
    split at h
    · rename_i hcaller
      split at h
      · rename_i hder
        split at h
        · simp at h
        · rename_i vAcct hv
          split at h
          · simp at h
          · rename_i st₁ hdeb
            split at h
            · simp at h
            · rename_i st₂ hcred
              have hst' : st' = setEsc (closeTok st₂
                  (vaultAddress escrowA rec.mintA)) escrowA none :=
                (Except.ok.inj h).symm
              subst hst'
              obtain ⟨hfr1, hesc1⟩ := debit_frame _ _ _ _ _ _ hdeb
              obtain ⟨hfr2, hesc2⟩ := credit_frame _ _ _ _ _ _ hcred
              refine ⟨rec, hrec, hcaller, hder, ?_, ?_, ?_, ?_⟩
              · rw [setEsc_same]
              · intro f hf
                rw [setEsc_other _ _ _ _ hf]
                unfold closeTok
                rw [setTok_escrows, hesc2, hesc1]
              · rw [setEsc_tokenAccts]
                unfold closeTok
                rw [setTok_same]
              · intro x hV hMA
                rw [setEsc_tokenAccts]
                unfold closeTok
                rw [setTok_other _ _ _ _ hV, hfr2 _ hMA, hfr1 _ hV]
      · simp at h
    · simp at h

/-! ## Claim C5: the vault holds 0 or exactly the deposit -/

/-- C5: over any single successful operation from a well-formed state,
every escrow's vault is in one of exactly two states and no operation
leaves any other amount: a Make that creates a record leaves its vault
holding exactly that Make's deposit; an operation that leaves an
existing record alive leaves its vault lookup completely unchanged (so
the balance stays the original deposit by induction); and an operation
that removes a record also removes its vault (balance 0 by
non-existence). No reachable intermediate or partial state exists
because each operation is one atomic step. -/
theorem vault_balance_lifecycle (st st' : Chain) (op : Op) (f : Addr)
    (recf : Escrow) (hwf : WF st) (hsig : signerOk op = true)
    (hstep : applyOp st op = .ok st') :
    (st.escrows f = none → st'.escrows f = some recf →
      st'.tokenAccts (vaultAddress f recf.mintA) =
        some ⟨recf.mintA, f, op.depositAmount⟩) ∧
    (st.escrows f = some recf →
      (st'.escrows f = some recf ∧
        st'.tokenAccts (vaultAddress f recf.mintA) =
          st.tokenAccts (vaultAddress f recf.mintA)) ∨
      (st'.escrows f = none ∧
        st'.tokenAccts (vaultAddress f recf.mintA) = none)) := by
  cases op with
  | opMake now maker mA mB src seed d r w =>
    simp only [applyOp] at hstep
    simp only [signerOk] at hsig
    obtain ⟨hd, hnone, hnew, hescfr, hvlt, ⟨sAcct, hsrc, hsOwn⟩, hsne,
      htokfr⟩ := make_ok_frame st now maker mA mB src seed d r w st'
        hstep
    constructor
    · intro h0 h1
      by_cases hfe : f = escrowAddress maker seed
      · subst hfe
        have hre : recf = ⟨seed, maker, mA, mB, r, now + w, 0⟩ := by
          rw [hnew] at h1
          exact (Option.some.inj h1).symm
        subst hre
        simp only [Op.depositAmount]
        exact hvlt
      · rw [hescfr f hfe, h0] at h1
        simp at h1
    · intro hf
      have hfe : f ≠ escrowAddress maker seed := by
        intro hh
        rw [hh, hnone] at hf
        simp at hf
      left
      refine ⟨by rw [hescfr f hfe]; exact hf, ?_⟩
      obtain ⟨hmkf, hfdf, hvown⟩ := hwf f recf hf
      have hvv : vaultAddress f recf.mintA ≠
          vaultAddress (escrowAddress maker seed) mA :=
        ata_ne_of_owner _ _ _ _ hfe
      have hvs : vaultAddress f recf.mintA ≠ src := by
        intro hh
        rw [← hh] at hsrc
        have hof := hvown sAcct hsrc
        rw [hsOwn] at hof
        exact key_ne_escrowAddress maker hsig recf.maker recf.seed
          (hof.trans hfdf)
      exact htokfr _ hvv hvs
  | opTake now taker escrowA =>
    simp only [applyOp] at hstep
    simp only [signerOk] at hsig
    obtain ⟨rec, hrec, hder, htime, hgone, hescfr, hvnone, htokfr⟩ :=
      take_ok_frame st now taker escrowA st' hstep
    constructor
    · intro h0 h1
      by_cases hfe : f = escrowA
      · subst hfe
        rw [hgone] at h1
        simp at h1
      · rw [hescfr f hfe, h0] at h1
        simp at h1
    · intro hf
      by_cases hfe : f = escrowA
      · subst hfe
        have hre : rec = recf := by
          rw [hrec] at hf
          exact Option.some.inj hf
        subst hre
        right
        exact ⟨hgone, hvnone⟩
      · left
        refine ⟨by rw [hescfr f hfe]; exact hf, ?_⟩
        obtain ⟨hmk', hfd', _⟩ := hwf escrowA rec hrec
        obtain ⟨hmkf, hfdf, _⟩ := hwf f recf hf
        have h1 : vaultAddress f recf.mintA ≠
            ataAddress taker rec.mintB := by
          apply ata_ne_of_owner
          rw [hfdf]
          exact (key_ne_escrowAddress taker hsig _ _).symm
        have h2 : vaultAddress f recf.mintA ≠
            ataAddress rec.maker rec.mintB := by
          apply ata_ne_of_owner
          rw [hfdf]
          exact (key_ne_escrowAddress rec.maker hmk' _ _).symm
        have h3 : vaultAddress f recf.mintA ≠
            vaultAddress escrowA rec.mintA :=
          ata_ne_of_owner _ _ _ _ hfe
        have h4 : vaultAddress f recf.mintA ≠
            ataAddress taker rec.mintA := by
          apply ata_ne_of_owner
          rw [hfdf]
          exact (key_ne_escrowAddress taker hsig _ _).symm
        exact htokfr _ h1 h2 h3 h4
  | opRefund now caller escrowA =>
    simp only [applyOp] at hstep
    simp only [signerOk] at hsig
    obtain ⟨rec, hrec, hcall, hder, hgone, hescfr, hvnone, htokfr⟩ :=
      refund_ok_frame st now caller escrowA st' hstep
    constructor
    · intro h0 h1
      by_cases hfe : f = escrowA
      · subst hfe
        rw [hgone] at h1
        simp at h1
      · rw [hescfr f hfe, h0] at h1
        simp at h1
    · intro hf
      by_cases hfe : f = escrowA
      · subst hfe
        have hre : rec = recf := by
          rw [hrec] at hf
          exact Option.some.inj hf
        subst hre
        right
        exact ⟨hgone, hvnone⟩
      · left
        refine ⟨by rw [hescfr f hfe]; exact hf, ?_⟩
        obtain ⟨hmk', hfd', _⟩ := hwf escrowA rec hrec
        obtain ⟨hmkf, hfdf, _⟩ := hwf f recf hf
        have h1 : vaultAddress f recf.mintA ≠
            vaultAddress escrowA rec.mintA :=
          ata_ne_of_owner _ _ _ _ hfe
        have h2 : vaultAddress f recf.mintA ≠
            ataAddress rec.maker rec.mintA := by
          apply ata_ne_of_owner
          rw [hfdf]
          exact (key_ne_escrowAddress rec.maker hmk' _ _).symm
        exact htokfr _ h1 h2

theorem vault_balance_lifecycle_witness :
    WF wSt0 ∧
    signerOk (.opMake 0 wMaker wMintA wMintB wSrcA 123 10 40 300) =
      true ∧
    applyOp wSt0 (.opMake 0 wMaker wMintA wMintB wSrcA 123 10 40 300) =
      .ok wSt1 ∧
    wSt0.escrows wEscrow = none ∧
    wSt1.escrows wEscrow = some wRec ∧
    wSt1.tokenAccts (vaultAddress wEscrow wRec.mintA) =
      some ⟨wRec.mintA, wEscrow, Op.depositAmount
        (.opMake 0 wMaker wMintA wMintB wSrcA 123 10 40 300)⟩ := by
  have hwf : WF wSt0 := fun f rec h => nomatch h
  have happ : applyOp wSt0
      (.opMake 0 wMaker wMintA wMintB wSrcA 123 10 40 300) =
      .ok wSt1 := rfl
  exact ⟨hwf, rfl, happ, rfl, rfl,
    (vault_balance_lifecycle wSt0 wSt1
      (.opMake 0 wMaker wMintA wMintB wSrcA 123 10 40 300) wEscrow wRec
      hwf rfl happ).1 rfl rfl⟩
